import Mathlib

set_option autoImplicit false

/-!
Shallow embedding of the luckydep dependency-injection library
(`src/luckydep/__init__.py`).

Modelling choices:
* Python type objects used as type tags are opaque tokens modelled as `Nat`.
* A registry key is the pair `(cls, name)` exactly as in the source
  (`identifier = (cls, name)` in `Container.invoke`).
* A caller-supplied factory receives the container and may resolve further
  dependencies from it, return a value, or raise an exception.  Factories are
  embedded as the syntax tree `FExp`: `ret v` returns `v`, `raiseErr e`
  raises, and `invoke cls name k` calls `container.invoke(cls, name=name)`
  and continues with the returned value via `k`.
* The Python dictionaries `self._factories` and `self._instances` are
  modelled as functions into `Option`.
* `calls` instruments the container with the number of times the factory
  registered under each key has been invoked; the source has no such field.
  It only observes behaviour and never influences any branch.
* Exceptions are modelled with `Except`: `Err.keyError k` is the `KeyError`
  escaping the lookup `self._factories[cls, name]`, `Err.userErr e` is an
  exception raised by a factory, and `Err.outOfFuel` is an artefact of the
  fuel parameter that bounds the (possibly unbounded) recursion of `invoke`.
  As in Python, an escaping exception does not roll back state, so the
  interpreter always returns the resulting container next to the outcome.
-/

variable {V : Type} {S : Type}

/-- Errors that can escape `Container.invoke`. -/
inductive Err where
  | keyError (key : Nat × String)
  | userErr (e : Nat)
  | outOfFuel
deriving DecidableEq

/-- Embedded syntax of a factory `Callable[[Container], T]`: it can return,
raise, or call `container.invoke(cls, name=name)` and continue. -/
inductive FExp (V : Type) where
  | ret (v : V)
  | raiseErr (e : Nat)
  | invoke (cls : Nat) (name : String) (k : V → FExp V)

/-- The `Container` state: the two dictionaries of the source plus the
`calls` instrumentation counting factory invocations per key. -/
structure Container (V : Type) where
  _factories : Nat × String → Option (FExp V)
  _instances : Nat × String → Option V
  calls : Nat × String → Nat

/-- `Container.__init__`: both dictionaries start empty. -/
def Container.empty (V : Type) : Container V :=
  ⟨fun _ => none, fun _ => none, fun _ => 0⟩

/-- `Container.provide(cls, factory, *, name="default")`:
`self._factories[cls, name] = factory`. -/
def Container.provide (c : Container V) (cls : Nat) (factory : FExp V)
    (name : String := "default") : Container V :=
  { c with _factories := fun k => if k = (cls, name) then some factory else c._factories k }

/-- Instrumentation: record one invocation of the factory stored at `key`. -/
def bumpCall (c : Container V) (key : Nat × String) : Container V :=
  { c with calls := fun k => if k = key then c.calls k + 1 else c.calls k }

/-- `self._instances[identifier] = v`. -/
def setInstance (c : Container V) (key : Nat × String) (v : V) : Container V :=
  { c with _instances := fun k => if k = key then some v else c._instances k }

/-- A pending computation of the interpreter: either an `invoke` call on a
key, or the run of a factory body. -/
inductive Call (V : Type) where
  | key (cls : Nat) (name : String)
  | run (e : FExp V)

/-- Fuelled interpreter for `Container.invoke` and for factory bodies.
`Call.key cls name` is the body of `Container.invoke`:
return the cached instance if present, raise `KeyError` if no factory is
registered, otherwise run the factory (passing the container) and store its
result in `_instances` afterwards.  `Call.run e` executes a factory body. -/
def interp : Nat → Call V → Container V → Container V × Except Err V
  | 0, _, c => (c, .error .outOfFuel)
  | fuel + 1, .key cls name, c =>
    match c._instances (cls, name) with
    | some v => (c, .ok v)
    | none =>
      match c._factories (cls, name) with
      | none => (c, .error (.keyError (cls, name)))
      | some fac =>
        match interp fuel (.run fac) (bumpCall c (cls, name)) with
        | (c2, .error err) => (c2, .error err)
        | (c2, .ok v) => (setInstance c2 (cls, name) v, .ok v)
  | fuel + 1, .run e, c =>
    match e with
    | .ret v => (c, .ok v)
    | .raiseErr n => (c, .error (.userErr n))
    | .invoke cls name k =>
      match interp fuel (.key cls name) c with
      | (c2, .error err) => (c2, .error err)
      | (c2, .ok v) => interp fuel (.run (k v)) c2

/-- `Container.invoke(cls, *, name="default")`. -/
def Container.invoke (fuel : Nat) (c : Container V) (cls : Nat)
    (name : String := "default") : Container V × Except Err V :=
  interp fuel (.key cls name) c

/-- Run one factory body against a container. -/
def runFExp (fuel : Nat) (e : FExp V) (c : Container V) : Container V × Except Err V :=
  interp fuel (.run e) c

/-- A plain zero-argument factory `Callable[[], T]` (no container access):
it can only return a value or raise. -/
inductive PlainFExp (V : Type) where
  | ret (v : V)
  | raiseErr (e : Nat)

/-- `wrap(factory)`: the returned closure `lambda container: factory()`
runs the plain factory, ignoring the container argument. -/
def wrap : PlainFExp V → FExp V
  | .ret v => .ret v
  | .raiseErr e => .raiseErr e

/-- The result of calling a plain factory `factory()` on its own. -/
def runPlain : PlainFExp V → Except Err V
  | .ret v => .ok v
  | .raiseErr e => .error (.userErr e)

/-- A factory body that never invokes `key`, at any depth. -/
inductive Avoids (key : Nat × String) : FExp V → Prop where
  | ret (v : V) : Avoids key (.ret v)
  | raiseErr (e : Nat) : Avoids key (.raiseErr e)
  | invoke (cls : Nat) (name : String) (k : V → FExp V) :
      (cls, name) ≠ key → (∀ v, Avoids key (k v)) → Avoids key (.invoke cls name k)

/-- Every factory registered in the container avoids invoking `key`
(no self-referential or cyclic registration through `key`). -/
def AllAvoidC (key : Nat × String) (c : Container V) : Prop :=
  ∀ k g, c._factories k = some g → Avoids key g

/-- The self-referential factory `lambda c: c.invoke(cls, name=name)`. -/
def selfFac (cls : Nat) (name : String) : FExp V :=
  .invoke cls name .ret

/-- The `Value` cell: a zero-argument factory, the optional cached value
(`None` before first resolution, and also the representation of a factory
result that is itself Python `None`), and the `_invoked` flag.  Factories
are state transformers on an external world `S` (observable side effects)
and may raise (`Except.error`). -/
structure Value (S V : Type) where
  _factory : S → S × Except Nat (Option V)
  _value : Option V
  _invoked : Bool

/-- `Value.__init__(factory)`: store the factory, `_value = None`,
`_invoked = False`.  The factory is not run (no `S` is touched). -/
def Value.new (f : S → S × Except Nat (Option V)) : Value S V :=
  ⟨f, none, false⟩

/-- `Value.value()`: if `_invoked` is false, run the factory (its world
effect happens now; if it raises, nothing is stored and the flag stays
false), store the result and set the flag; return `_value`. -/
def Value.value (cell : Value S V) (s : S) : (Value S V × S) × Except Nat (Option V) :=
  if cell._invoked then ((cell, s), .ok cell._value)
  else
    match cell._factory s with
    | (s', .error e) => ((cell, s'), .error e)
    | (s', .ok v) => (({ cell with _value := v, _invoked := true }, s'), .ok v)

/-- A pending computation avoids `key`: an invoke call on a key other than
`key`, or the run of a factory body avoiding `key`. -/
def CallAvoids (key : Nat × String) : Call V → Prop
  | .key cls name => (cls, name) ≠ key
  | .run e => Avoids key e

/-- Concrete container: one constant factory under the default name. -/
def cwA : Container Nat := (Container.empty Nat).provide 0 (FExp.ret 42)

/-- `cwA` after its first successful resolution of `(0, "default")`. -/
def cwA' : Container Nat := setInstance (bumpCall cwA (0, "default")) (0, "default") 42

/-- Concrete container: a factory that raises, under the default name. -/
def cwB : Container Nat := (Container.empty Nat).provide 0 (FExp.raiseErr 7)

/-- `cwB` after one failed resolution attempt of `(0, "default")`. -/
def cwB2 : Container Nat := bumpCall cwB (0, "default")

/-- Concrete container with an already-cached instance for `(0, "default")`. -/
def cwC : Container Nat := setInstance (Container.empty Nat) (0, "default") 9

/-- Concrete container: a constant factory under the default name. -/
def cwD : Container Nat := (Container.empty Nat).provide 0 (FExp.ret 5)

/-- `cwD` after its first successful resolution of `(0, "default")`. -/
def cwD' : Container Nat := setInstance (bumpCall cwD (0, "default")) (0, "default") 5

/-- Concrete container: the self-referential factory under the default name. -/
def cwE : Container Nat := (Container.empty Nat).provide 0 (selfFac 0 "default")

/-- Concrete plain-value factory: bumps a counter and returns 5. -/
def fW : Nat → Nat × Except Nat (Option Nat) := fun n => (n + 1, Except.ok (some 5))

/-- Concrete factory that raises on the first attempt and succeeds after. -/
def gW : Nat → Nat × Except Nat (Option Nat) :=
  fun s => (s + 1, if s = 0 then Except.error 3 else Except.ok (some 9))

/-- Concrete factory returning Python `None` (and bumping a counter). -/
def gN : Nat → Nat × Except Nat (Option Nat) := fun s => (s + 1, Except.ok none)

theorem bumpCall_factories (c : Container V) (key : Nat × String) :
    (bumpCall c key)._factories = c._factories := rfl

theorem bumpCall_instances (c : Container V) (key : Nat × String) :
    (bumpCall c key)._instances = c._instances := rfl

theorem bumpCall_calls_self (c : Container V) (key : Nat × String) :
    (bumpCall c key).calls key = c.calls key + 1 := by
  simp [bumpCall]

theorem bumpCall_calls_other (c : Container V) (key k : Nat × String) (h : k ≠ key) :
    (bumpCall c key).calls k = c.calls k := by
  simp [bumpCall, h]

theorem setInstance_factories (c : Container V) (key : Nat × String) (v : V) :
    (setInstance c key v)._factories = c._factories := rfl

theorem setInstance_calls (c : Container V) (key : Nat × String) (v : V) :
    (setInstance c key v).calls = c.calls := rfl

theorem setInstance_instances_self (c : Container V) (key : Nat × String) (v : V) :
    (setInstance c key v)._instances key = some v := by
  simp [setInstance]

theorem setInstance_instances_other (c : Container V) (key k : Nat × String) (v : V)
    (h : k ≠ key) : (setInstance c key v)._instances k = c._instances k := by
  simp [setInstance, h]

/-- `invoke` and factory runs never modify the `_factories` dictionary. -/
theorem interp_factories_eq : ∀ (fuel : Nat) (call : Call V) (c : Container V),
    ((interp fuel call c).1)._factories = c._factories := by
  intro fuel
  induction fuel with
  | zero => intro call c; rfl
  | succ n ih =>
    intro call c
    cases call with
    | key cls name =>
      simp only [interp]
      split
      · rfl
      · split
        · rfl
        · rename_i fac hfac
          split
          · rename_i c2 err heq
            have h2 := ih (.run fac) (bumpCall c (cls, name))
            rw [heq] at h2
            exact h2
          · rename_i c2 v heq
            have h2 := ih (.run fac) (bumpCall c (cls, name))
            rw [heq] at h2
            exact h2
    | run e =>
      cases e with
      | ret v => rfl
      | raiseErr m => rfl
      | invoke cls name k =>
        simp only [interp]
        split
        · rename_i c2 err heq
          have h2 := ih (.key cls name) c
          rw [heq] at h2
          exact h2
        · rename_i c2 v heq
          have h2 := ih (.key cls name) c
          rw [heq] at h2
          have h3 := ih (.run (k v)) c2
          exact h3.trans h2

/-- The invocation counter of any key never decreases. -/
theorem interp_calls_mono (key : Nat × String) :
    ∀ (fuel : Nat) (call : Call V) (c : Container V),
    c.calls key ≤ ((interp fuel call c).1).calls key := by
  intro fuel
  induction fuel with
  | zero => intro call c; exact le_refl _
  | succ n ih =>
    intro call c
    cases call with
    | key cls name =>
      simp only [interp]
      split
      · exact le_refl _
      · split
        · exact le_refl _
        · have hbump : c.calls key ≤ (bumpCall c (cls, name)).calls key := by
            by_cases hk : key = (cls, name)
            · subst hk; rw [bumpCall_calls_self]; omega
            · rw [bumpCall_calls_other _ _ _ hk]
          rename_i fac hfac
          split
          · rename_i c2 err heq
            have h2 := ih (.run fac) (bumpCall c (cls, name))
            rw [heq] at h2
            exact hbump.trans h2
          · rename_i c2 v heq
            have h2 := ih (.run fac) (bumpCall c (cls, name))
            rw [heq] at h2
            rw [show (setInstance c2 (cls, name) v).calls = c2.calls from rfl]
            exact hbump.trans h2
    | run e =>
      cases e with
      | ret v => exact le_refl _
      | raiseErr m => exact le_refl _
      | invoke cls name k =>
        simp only [interp]
        split
        · rename_i c2 err heq
          have h2 := ih (.key cls name) c
          rw [heq] at h2
          exact h2
        · rename_i c2 v heq
          have h2 := ih (.key cls name) c
          rw [heq] at h2
          exact h2.trans (ih (.run (k v)) c2)

/-- Once a key is cached, no resolution ever changes its cached value, and
the factory registered under it is never invoked again (the counter for the
key is unchanged), at any nesting depth. -/
theorem interp_cached_frozen (key : Nat × String) (v : V) :
    ∀ (fuel : Nat) (call : Call V) (c : Container V),
    c._instances key = some v →
    ((interp fuel call c).1)._instances key = some v ∧
    ((interp fuel call c).1).calls key = c.calls key := by
  intro fuel
  induction fuel with
  | zero => intro call c h; exact ⟨h, rfl⟩
  | succ n ih =>
    intro call c h
    cases call with
    | key cls name =>
      simp only [interp]
      split
      · exact ⟨h, rfl⟩
      · rename_i hmiss
        have hne : key ≠ (cls, name) := by
          intro hk; rw [hk] at h; rw [h] at hmiss; exact Option.noConfusion hmiss
        split
        · exact ⟨h, rfl⟩
        · rename_i fac hfac
          have hpre : (bumpCall c (cls, name))._instances key = some v := h
          split
          · rename_i c2 err heq
            have h2 := ih (.run fac) (bumpCall c (cls, name)) hpre
            rw [heq] at h2
            exact ⟨h2.1, h2.2.trans (bumpCall_calls_other _ _ _ hne)⟩
          · rename_i c2 v2 heq
            have h2 := ih (.run fac) (bumpCall c (cls, name)) hpre
            rw [heq] at h2
            constructor
            · rw [setInstance_instances_other _ _ _ _ hne]
              exact h2.1
            · rw [show (setInstance c2 (cls, name) v2).calls = c2.calls from rfl]
              exact h2.2.trans (bumpCall_calls_other _ _ _ hne)
    | run e =>
      cases e with
      | ret w => exact ⟨h, rfl⟩
      | raiseErr m => exact ⟨h, rfl⟩
      | invoke cls name k =>
        simp only [interp]
        split
        · rename_i c2 err heq
          have h2 := ih (.key cls name) c h
          rw [heq] at h2
          exact h2
        · rename_i c2 w heq
          have h2 := ih (.key cls name) c h
          rw [heq] at h2
          have h3 := ih (.run (k w)) c2 h2.1
          exact ⟨h3.1, h3.2.trans h2.2⟩

/-- If no factory in the container ever invokes `key` and the computation
itself avoids `key`, then the cached instance and the invocation counter of
`key` are untouched. -/
theorem interp_avoid (key : Nat × String) :
    ∀ (fuel : Nat) (call : Call V) (c : Container V),
    AllAvoidC key c → CallAvoids key call →
    ((interp fuel call c).1)._instances key = c._instances key ∧
    ((interp fuel call c).1).calls key = c.calls key := by
  intro fuel
  induction fuel with
  | zero => intro call c _ _; exact ⟨rfl, rfl⟩
  | succ n ih =>
    intro call c hall hav
    cases call with
    | key cls name =>
      have hkne : (cls, name) ≠ key := hav
      simp only [interp]
      split
      · exact ⟨rfl, rfl⟩
      · split
        · exact ⟨rfl, rfl⟩
        · rename_i fac hfac
          have hfavoid : Avoids key fac := hall (cls, name) fac hfac
          have hall1 : AllAvoidC key (bumpCall c (cls, name)) := hall
          have h2 := ih (.run fac) (bumpCall c (cls, name)) hall1 hfavoid
          split
          · rename_i c2 err heq
            rw [heq] at h2
            exact ⟨h2.1, h2.2.trans (bumpCall_calls_other _ _ _ (Ne.symm hkne))⟩
          · rename_i c2 v heq
            rw [heq] at h2
            constructor
            · rw [setInstance_instances_other _ _ _ _ (Ne.symm hkne)]
              exact h2.1
            · rw [show (setInstance c2 (cls, name) v).calls = c2.calls from rfl]
              exact h2.2.trans (bumpCall_calls_other _ _ _ (Ne.symm hkne))
    | run e =>
      cases e with
      | ret v => exact ⟨rfl, rfl⟩
      | raiseErr m => exact ⟨rfl, rfl⟩
      | invoke cls name k =>
        cases hav with
        | invoke _ _ _ hne hk =>
          simp only [interp]
          split
          · rename_i c2 err heq
            have h2 := ih (.key cls name) c hall hne
            rw [heq] at h2
            exact h2
          · rename_i c2 v heq
            have h2 := ih (.key cls name) c hall hne
            rw [heq] at h2
            have hfq := interp_factories_eq n (.key cls name) c
            rw [heq] at hfq
            have hall2 : AllAvoidC key c2 := by
              intro k2 g hg
              apply hall k2 g
              rw [← hfq]
              exact hg
            have h3 := ih (.run (k v)) c2 hall2 (hk v)
            exact ⟨h3.1.trans h2.1, h3.2.trans h2.2⟩

/-- While a factory is registered under `key`, no resolution can fail with
the `KeyError` for `key` (a `KeyError` carries exactly the missing key). -/
theorem interp_no_keyError (key : Nat × String) :
    ∀ (fuel : Nat) (call : Call V) (c : Container V),
    c._factories key ≠ none →
    (interp fuel call c).2 ≠ Except.error (Err.keyError key) := by
  intro fuel
  induction fuel with
  | zero =>
    intro call c _ hc
    injection hc with h'
    exact Err.noConfusion h'
  | succ n ih =>
    intro call c h
    cases call with
    | key cls name =>
      simp only [interp]
      split
      · intro hc; exact Except.noConfusion hc
      · split
        · rename_i hfnone
          intro hc
          injection hc with h'
          injection h' with h''
          rw [h''] at hfnone
          exact h (by rw [hfnone])
        · rename_i fac hfac
          have h1 : (bumpCall c (cls, name))._factories key ≠ none := h
          have h2 := ih (.run fac) (bumpCall c (cls, name)) h1
          split
          · rename_i c2 err heq
            rw [heq] at h2
            exact h2
          · intro hc; exact Except.noConfusion hc
    | run e =>
      cases e with
      | ret v => intro hc; exact Except.noConfusion hc
      | raiseErr m =>
        intro hc
        injection hc with h'
        exact Err.noConfusion h'
      | invoke cls name k =>
        simp only [interp]
        split
        · rename_i c2 err heq
          have h2 := ih (.key cls name) c h
          rw [heq] at h2
          exact h2
        · rename_i c2 v heq
          have hfq := interp_factories_eq n (.key cls name) c
          rw [heq] at hfq
          exact ih (.run (k v)) c2 (by rw [hfq]; exact h)

/-- A successful `invoke` always leaves its result cached under its key. -/
theorem invoke_ok_caches (fuel : Nat) (c : Container V) (cls : Nat) (name : String)
    (c' : Container V) (v : V)
    (h : Container.invoke fuel c cls name = (c', Except.ok v)) :
    c'._instances (cls, name) = some v := by
  cases fuel with
  | zero =>
    injection h with h1 h2
    exact Except.noConfusion h2
  | succ n =>
    simp only [Container.invoke, interp] at h
    split at h
    · rename_i w hw
      injection h with h1 h2
      injection h2 with h3
      rw [← h1, ← h3]
      exact hw
    · split at h
      · injection h with h1 h2
        exact Except.noConfusion h2
      · split at h
        · injection h with h1 h2
          exact Except.noConfusion h2
        · rename_i c2 w heq
          injection h with h1 h2
          injection h2 with h3
          rw [← h1, ← h3]
          exact setInstance_instances_self _ _ _

/-- `invoke` on a cached key returns the cached instance and leaves the
container untouched (no factory invocation, no side effects). -/
theorem invoke_cached (fuel : Nat) (c : Container V) (cls : Nat) (name : String) (v : V)
    (h : c._instances (cls, name) = some v) :
    Container.invoke (fuel + 1) c cls name = (c, Except.ok v) := by
  simp only [Container.invoke, interp]
  rw [h]

/-- `invoke` on an uncached, unregistered key raises the `KeyError` for
exactly that key and leaves the container untouched. -/
theorem invoke_notfound (fuel : Nat) (c : Container V) (cls : Nat) (name : String)
    (hi : c._instances (cls, name) = none) (hf : c._factories (cls, name) = none) :
    Container.invoke (fuel + 1) c cls name = (c, Except.error (Err.keyError (cls, name))) := by
  simp only [Container.invoke, interp]
  rw [hi, hf]

/-- `invoke` on an uncached key with a registered factory runs the factory
against a state in which the key is still uncached, and stores the result
only after the factory returns. -/
theorem invoke_runs_factory (fuel : Nat) (c : Container V) (cls : Nat) (name : String)
    (fac : FExp V)
    (hi : c._instances (cls, name) = none) (hf : c._factories (cls, name) = some fac) :
    Container.invoke (fuel + 1) c cls name =
      (match interp fuel (.run fac) (bumpCall c (cls, name)) with
       | (c2, .error err) => (c2, .error err)
       | (c2, .ok v) => (setInstance c2 (cls, name) v, .ok v)) := by
  simp only [Container.invoke, interp]
  rw [hi, hf]

/-- One step of a factory body that invokes the container. -/
theorem runFExp_invoke (fuel : Nat) (cls : Nat) (name : String) (k : V → FExp V)
    (c : Container V) :
    runFExp (fuel + 1) (.invoke cls name k) c =
      (match Container.invoke fuel c cls name with
       | (c2, .error err) => (c2, .error err)
       | (c2, .ok v) => runFExp fuel (k v) c2) := rfl

/-- `invoke` on an uncached key with a registered factory always invokes the
factory: the invocation counter of the key strictly increases, whatever the
outcome of the factory run. -/
theorem invoke_uncached_bumps (fuel : Nat) (c : Container V) (cls : Nat) (name : String)
    (fac : FExp V) (hi : c._instances (cls, name) = none)
    (hf : c._factories (cls, name) = some fac) :
    c.calls (cls, name) + 1 ≤ ((Container.invoke (fuel + 1) c cls name).1).calls (cls, name) := by
  rw [invoke_runs_factory fuel c cls name fac hi hf]
  have hmono := interp_calls_mono (cls, name) fuel (.run fac) (bumpCall c (cls, name))
  rw [bumpCall_calls_self] at hmono
  split
  · rename_i c2 err heq
    rw [heq] at hmono
    exact hmono
  · rename_i c2 v heq
    rw [heq] at hmono
    rw [show (setInstance c2 (cls, name) v).calls = c2.calls from rfl]
    exact hmono

/-- C1: Singleton memoization.  For a key with no cached instance, a
registered factory, and no (direct or indirect) re-entrant registration for
that key, a successful `invoke` caches its result, invokes the registered
factory exactly once (the counter goes from `n` to `n + 1`), and every
subsequent `invoke` of the same key returns the identical instance while
leaving the container — counter included — completely unchanged, so the
factory is invoked exactly once across all those calls. -/
theorem C1_singleton_memoization (c : Container V) (cls : Nat) (name : String)
    (f : FExp V) (fuel : Nat) (v : V) (c' : Container V)
    (havoid : AllAvoidC (cls, name) c)
    (hinst : c._instances (cls, name) = none)
    (hfac : c._factories (cls, name) = some f)
    (hrun : Container.invoke (fuel + 1) c cls name = (c', Except.ok v)) :
    c'._instances (cls, name) = some v ∧
    c'.calls (cls, name) = c.calls (cls, name) + 1 ∧
    ∀ m : Nat, Container.invoke (m + 1) c' cls name = (c', Except.ok v) := by
  rw [invoke_runs_factory fuel c cls name f hinst hfac] at hrun
  split at hrun
  · rename_i c2 err heq
    injection hrun with h1 h2
    exact Except.noConfusion h2
  · rename_i c2 w heq
    injection hrun with h1 h2
    injection h2 with h3
    have hpres := interp_avoid (cls, name) fuel (.run f) (bumpCall c (cls, name))
      havoid (havoid (cls, name) f hfac)
    rw [heq] at hpres
    have hci : c'._instances (cls, name) = some v := by
      rw [← h1, ← h3]
      exact setInstance_instances_self _ _ _
    refine ⟨hci, ?_, fun m => invoke_cached m c' cls name v hci⟩
    rw [← h1]
    rw [show (setInstance c2 (cls, name) w).calls = c2.calls from rfl]
    exact hpres.2.trans (bumpCall_calls_self c (cls, name))

/-- C2: `invoke` fails with the `KeyError` for its key exactly when the key
has no cached instance and no registered factory; in that case the error is
returned immediately with the container untouched (no retry, no recovery). -/
theorem C2_notfound_iff_unregistered (c : Container V) (cls : Nat) (name : String)
    (fuel : Nat) :
    ((Container.invoke (fuel + 1) c cls name).2 = Except.error (Err.keyError (cls, name)) ↔
      c._instances (cls, name) = none ∧ c._factories (cls, name) = none) ∧
    (c._instances (cls, name) = none → c._factories (cls, name) = none →
      Container.invoke (fuel + 1) c cls name = (c, Except.error (Err.keyError (cls, name)))) := by
  constructor
  · constructor
    · intro h
      cases hi : c._instances (cls, name) with
      | some v =>
        rw [invoke_cached fuel c cls name v hi] at h
        exact absurd h (by simp)
      | none =>
        cases hf : c._factories (cls, name) with
        | none => exact ⟨rfl, rfl⟩
        | some fac =>
          have hne : c._factories (cls, name) ≠ none := by rw [hf]; exact fun hc => Option.noConfusion hc
          exact absurd h (interp_no_keyError (cls, name) (fuel + 1) (.key cls name) c hne)
    · intro hb
      rw [invoke_notfound fuel c cls name hb.1 hb.2]
  · intro hi hf
    exact invoke_notfound fuel c cls name hi hf

/-- C3: Atomicity and retry on factory failure.  A factory that raises
propagates its error unmodified to the caller of `invoke` (first conjunct:
a directly-raising factory).  When any `invoke` of an uncached registered
key ends in a factory-raised error (and no registered factory re-enters the
key), the key still has no cached instance, the same factory is still
registered, and the next `invoke` of the key invokes the factory again from
scratch (its counter strictly increases).  Likewise for a `Value` cell: a
raising factory leaves the cell unresolved with nothing cached (world
effects before the raise persist), and any later `value()` call retries the
factory from scratch. -/
theorem C3_factory_failure_atomic_retry {W : Type} (c : Container V) (cls : Nat)
    (name : String) (f : FExp V) (n fuel : Nat) (c2 : Container V)
    (g : S → S × Except Nat (Option W)) :
    (c._instances (cls, name) = none → c._factories (cls, name) = some (FExp.raiseErr n) →
      Container.invoke (fuel + 2) c cls name
        = (bumpCall c (cls, name), Except.error (Err.userErr n))) ∧
    (AllAvoidC (cls, name) c → c._instances (cls, name) = none →
      c._factories (cls, name) = some f →
      Container.invoke (fuel + 1) c cls name = (c2, Except.error (Err.userErr n)) →
      c2._instances (cls, name) = none ∧ c2._factories (cls, name) = some f ∧
      ∀ m : Nat,
        c2.calls (cls, name) + 1 ≤ ((Container.invoke (m + 1) c2 cls name).1).calls (cls, name)) ∧
    (∀ (s s' : S) (e : Nat), g s = (s', Except.error e) →
      Value.value (Value.new g) s = ((Value.new g, s'), Except.error e)) ∧
    (∀ (s2 s2' : S) (w : Option W), g s2 = (s2', Except.ok w) →
      Value.value (Value.new g) s2 = ((⟨g, w, true⟩, s2'), Except.ok w)) := by
  refine ⟨?_, ?_, ?_, ?_⟩
  · intro hi hf
    rw [invoke_runs_factory (fuel + 1) c cls name (FExp.raiseErr n) hi hf]
    rfl
  · intro havoid hi hf hrun
    rw [invoke_runs_factory fuel c cls name f hi hf] at hrun
    split at hrun
    · rename_i c2' err heq
      injection hrun with h1 h2
      injection h2 with h3
      have hpres := interp_avoid (cls, name) fuel (.run f) (bumpCall c (cls, name))
        havoid (havoid (cls, name) f hf)
      rw [heq] at hpres
      have hfq := interp_factories_eq fuel (Call.run f) (bumpCall c (cls, name))
      rw [heq] at hfq
      have hi2 : c2._instances (cls, name) = none := by rw [← h1]; exact hpres.1.trans hi
      have hf2 : c2._factories (cls, name) = some f := by
        rw [← h1]
        rw [show c2'._factories = c._factories from hfq]
        exact hf
      exact ⟨hi2, hf2, fun m => invoke_uncached_bumps m c2 cls name f hi2 hf2⟩
    · rename_i c2' w heq
      injection hrun with h1 h2
      exact Except.noConfusion h2
  · intro s s' e hgs
    simp [Value.value, Value.new, hgs]
  · intro s2 s2' w hgs
    simp [Value.value, Value.new, hgs]

/-- C4: wrap adaptation.  Invoking the wrapped factory `wrap(f)` with any
container returns exactly the plain factory's own result (value or raised
error), ignores the container argument, and has no effect on the container
whatsoever (no caching, no side effects beyond running `f`). -/
theorem C4_wrap_adaptation (pf : PlainFExp V) (c : Container V) (fuel : Nat) :
    runFExp (fuel + 1) (wrap pf) c = (c, runPlain pf) := by
  cases pf with
  | ret v => rfl
  | raiseErr e => rfl

/-- C5: Resolved is terminal.  Once a key has a cached instance, any
resolution of any key leaves that cached value in place and never invokes
the key's factory again (its counter is unchanged); `invoke` of the key
returns the cached instance with the container untouched; and re-registering
a new factory under the same key updates `_factories` but leaves the cached
instance in place, so a subsequent `invoke` still returns the originally
cached instance. -/
theorem C5_resolved_terminal (c : Container V) (cls : Nat) (name : String) (v : V)
    (hinst : c._instances (cls, name) = some v) :
    (∀ (fuel cls2 : Nat) (name2 : String),
      ((Container.invoke fuel c cls2 name2).1)._instances (cls, name) = some v ∧
      ((Container.invoke fuel c cls2 name2).1).calls (cls, name) = c.calls (cls, name)) ∧
    (∀ m : Nat, Container.invoke (m + 1) c cls name = (c, Except.ok v)) ∧
    (∀ (f2 : FExp V) (m : Nat),
      (Container.provide c cls f2 name)._factories (cls, name) = some f2 ∧
      (Container.provide c cls f2 name)._instances (cls, name) = some v ∧
      Container.invoke (m + 1) (Container.provide c cls f2 name) cls name
        = (Container.provide c cls f2 name, Except.ok v)) := by
  refine ⟨?_, fun m => invoke_cached m c cls name v hinst, ?_⟩
  · intro fuel cls2 name2
    exact interp_cached_frozen (cls, name) v fuel (.key cls2 name2) c hinst
  · intro f2 m
    refine ⟨by simp [Container.provide], hinst, ?_⟩
    exact invoke_cached m (Container.provide c cls f2 name) cls name v hinst

/-- C6: Registration frame.  `provide` stores the factory under exactly
`(cls, name)`, overwriting any prior factory for that key; every other
`_factories` entry, the whole `_instances` cache, and the invocation
counters (so: no factory is invoked) are unchanged. -/
theorem C6_provide_frame (c : Container V) (cls : Nat) (name : String) (f : FExp V) :
    (Container.provide c cls f name)._factories (cls, name) = some f ∧
    (∀ k : Nat × String, k ≠ (cls, name) →
      (Container.provide c cls f name)._factories k = c._factories k) ∧
    (Container.provide c cls f name)._instances = c._instances ∧
    (Container.provide c cls f name).calls = c.calls := by
  refine ⟨by simp [Container.provide], ?_, rfl, rfl⟩
  intro k hk
  simp [Container.provide, hk]

/-- C7: Default name.  `provide(cls, f)` with no explicit name registers
under `(cls, "default")`; `invoke(cls)` and `invoke(cls, name="default")`
are the very same operation (so they return the same singleton — after a
first successful resolution, re-resolving via the explicit name returns the
identical cached instance); and `invoke(cls, name=other)` for any other
never-registered, never-cached name fails with the `KeyError` for that key,
the container untouched. -/
theorem C7_default_name (c : Container V) (cls : Nat) (f : FExp V) :
    (Container.provide c cls f)._factories (cls, "default") = some f ∧
    (∀ (fuel : Nat) (c2 : Container V) (cls2 : Nat),
      Container.invoke fuel c2 cls2 = Container.invoke fuel c2 cls2 "default") ∧
    (∀ (fuel : Nat) (c3 : Container V) (v : V),
      Container.invoke (fuel + 1) (Container.provide c cls f) cls = (c3, Except.ok v) →
      ∀ m : Nat, Container.invoke (m + 1) c3 cls "default" = (c3, Except.ok v)) ∧
    (∀ other : String, other ≠ "default" →
      c._factories (cls, other) = none → c._instances (cls, other) = none →
      ∀ m : Nat,
        Container.invoke (m + 1) (Container.provide c cls f) cls other
          = (Container.provide c cls f, Except.error (Err.keyError (cls, other)))) := by
  refine ⟨by simp [Container.provide], fun fuel c2 cls2 => rfl, ?_, ?_⟩
  · intro fuel c3 v h m
    exact invoke_cached m c3 cls "default" v
      (invoke_ok_caches (fuel + 1) (Container.provide c cls f) cls "default" c3 v h)
  · intro other hne hf hi m
    have h1 : (Container.provide c cls f)._factories (cls, other) = none := by
      show (if ((cls, other) : Nat × String) = (cls, "default") then some f
            else c._factories (cls, other)) = none
      rw [if_neg, hf]
      intro hc
      injection hc with h2 h3
      exact hne h3
    exact invoke_notfound m (Container.provide c cls f) cls other hi h1

/-- C8: LazyCell laziness and at-most-once invocation.  Constructing a
`Value` stores the factory without running it (`_invoked` is false, nothing
cached, and no world state is touched — construction does not even take a
world).  The first `value()` call runs the factory exactly once (the world
moves by exactly the factory's own effect), caches its result and sets the
flag; every call on a resolved cell returns the cached result and leaves
cell and world completely unchanged, so the factory's effect happens exactly
once however many times `value()` is called. -/
theorem C8_lazycell_lazy_memoized (f : S → S × Except Nat (Option V)) (cell : Value S V)
    (s s2 : S) :
    ((Value.new f)._invoked = false ∧ (Value.new f)._value = none ∧
      (Value.new f)._factory = f) ∧
    (∀ (s' : S) (v : Option V), cell._invoked = false →
      cell._factory s = (s', Except.ok v) →
      Value.value cell s = ((⟨cell._factory, v, true⟩, s'), Except.ok v)) ∧
    (cell._invoked = true → Value.value cell s2 = ((cell, s2), Except.ok cell._value)) := by
  refine ⟨⟨rfl, rfl, rfl⟩, ?_, ?_⟩
  · intro s' v hinv hfs
    simp [Value.value, hinv, hfs]
  · intro hinv
    simp [Value.value, hinv]

/-- C9: Reentrancy ordering.  The instance cache is written only after the
factory returns, so as long as a key is uncached (but registered) every
`invoke` of it — the nested re-entrant one included — runs the factory
again: the invocation counter strictly increases (first conjunct).  For the
self-referential factory `lambda c: c.invoke(cls, name=name)` the recursion
is unbounded: for every fuel bound the resolution fails with fuel
exhaustion, never with an answer — the design has no guard. -/
theorem C9_reentrancy_unguarded (c : Container V) (cls : Nat) (name : String) :
    (∀ (f : FExp V) (fuel : Nat), c._instances (cls, name) = none →
      c._factories (cls, name) = some f →
      c.calls (cls, name) + 1 ≤ ((Container.invoke (fuel + 1) c cls name).1).calls (cls, name)) ∧
    (c._instances (cls, name) = none →
      c._factories (cls, name) = some (selfFac cls name) →
      ∀ fuel : Nat, (Container.invoke fuel c cls name).2 = Except.error Err.outOfFuel) := by
  constructor
  · intro f fuel hi hf
    exact invoke_uncached_bumps fuel c cls name f hi hf
  · intro hi hf fuel
    have main : ∀ fuel2 : Nat,
        (∀ d : Container V, d._instances (cls, name) = none →
          d._factories (cls, name) = some (selfFac cls name) →
          (Container.invoke fuel2 d cls name).2 = Except.error Err.outOfFuel) ∧
        (∀ d : Container V, d._instances (cls, name) = none →
          d._factories (cls, name) = some (selfFac cls name) →
          (runFExp fuel2 (selfFac cls name) d).2 = Except.error Err.outOfFuel) := by
      intro fuel2
      induction fuel2 with
      | zero => exact ⟨fun d _ _ => rfl, fun d _ _ => rfl⟩
      | succ m ih =>
        constructor
        · intro d hdi hdf
          rw [invoke_runs_factory m d cls name (selfFac cls name) hdi hdf]
          have h2 := ih.2 (bumpCall d (cls, name)) hdi hdf
          split
          · rename_i c2 err heq
            rw [show runFExp m (selfFac cls name) (bumpCall d (cls, name))
                  = interp m (.run (selfFac cls name)) (bumpCall d (cls, name)) from rfl,
                heq] at h2
            exact h2
          · rename_i c2 w heq
            rw [show runFExp m (selfFac cls name) (bumpCall d (cls, name))
                  = interp m (.run (selfFac cls name)) (bumpCall d (cls, name)) from rfl,
                heq] at h2
            exact absurd h2 (by simp)
        · intro d hdi hdf
          rw [show selfFac cls name = FExp.invoke cls name FExp.ret from rfl,
              runFExp_invoke m cls name FExp.ret d]
          have h1 := ih.1 d hdi hdf
          split
          · rename_i c2 err heq
            rw [heq] at h1
            exact h1
          · rename_i c2 w heq
            rw [heq] at h1
            exact absurd h1 (by simp)
    exact (main fuel).1 c hi hf

/-- C10: Memoizing a `None` result is flag-guarded.  The resolution check of
`Value.value` tests `_invoked`, not whether `_value` is still the initial
`None`; hence when the factory returns `None` the first call returns `None`
and marks the cell resolved (leaving `_value` indistinguishable from the
initial sentinel), and every subsequent call returns `None` without running
the factory again (cell and world unchanged). -/
theorem C10_none_result_memoized (g : S → S × Except Nat (Option V)) (s s' : S)
    (h : g s = (s', Except.ok none)) :
    Value.value (Value.new g) s = (((⟨g, none, true⟩ : Value S V), s'), Except.ok none) ∧
    ∀ s2 : S, Value.value (⟨g, none, true⟩ : Value S V) s2
      = ((⟨g, none, true⟩, s2), Except.ok none) := by
  constructor
  · simp [Value.value, Value.new, h]
  · intro s2
    simp [Value.value]

/-- Witness for C1 at a concrete container: registering a constant factory
and resolving twice returns the identical instance, with one factory call. -/
theorem C1_singleton_memoization_witness :
    AllAvoidC (0, "default") cwA ∧
    cwA._instances (0, "default") = none ∧
    cwA._factories (0, "default") = some (FExp.ret 42) ∧
    Container.invoke 2 cwA 0 "default" = (cwA', Except.ok 42) ∧
    Container.invoke 1 cwA' 0 "default" = (cwA', Except.ok 42) := by
  have havoid : AllAvoidC (0, "default") cwA := by
    intro k g hg
    simp only [cwA, Container.provide, Container.empty] at hg
    split at hg
    · injection hg with h2
      rw [← h2]
      exact Avoids.ret 42
    · exact Option.noConfusion hg
  have hrun : Container.invoke 2 cwA 0 "default" = (cwA', Except.ok 42) := rfl
  exact ⟨havoid, rfl, rfl, hrun,
    (C1_singleton_memoization cwA 0 "default" (FExp.ret 42) 1 42 cwA' havoid rfl rfl hrun).2.2 0⟩

/-- Witness for C2 at the empty container: resolving an unregistered key
fails with exactly its `KeyError`, container untouched. -/
theorem C2_notfound_iff_unregistered_witness :
    (Container.empty Nat)._instances (0, "default") = none ∧
    (Container.empty Nat)._factories (0, "default") = none ∧
    Container.invoke 1 (Container.empty Nat) 0 "default"
      = (Container.empty Nat, Except.error (Err.keyError (0, "default"))) :=
  ⟨rfl, rfl, (C2_notfound_iff_unregistered (Container.empty Nat) 0 "default" 0).2 rfl rfl⟩

/-- Witness for C3 at concrete inputs: a raising factory propagates its
error, caches nothing, and the next attempt re-invokes it; a raising
`Value` factory leaves the cell unresolved and a later call retries. -/
theorem C3_factory_failure_atomic_retry_witness :
    cwB._instances (0, "default") = none ∧
    cwB._factories (0, "default") = some (FExp.raiseErr 7) ∧
    AllAvoidC (0, "default") cwB ∧
    Container.invoke 3 cwB 0 "default" = (cwB2, Except.error (Err.userErr 7)) ∧
    Container.invoke 2 cwB 0 "default" = (cwB2, Except.error (Err.userErr 7)) ∧
    (cwB2._instances (0, "default") = none ∧
      cwB2._factories (0, "default") = some (FExp.raiseErr 7) ∧
      cwB2.calls (0, "default") + 1 ≤ ((Container.invoke 1 cwB2 0 "default").1).calls (0, "default")) ∧
    gW 0 = (1, Except.error 3) ∧
    Value.value (Value.new gW) 0 = ((Value.new gW, 1), Except.error 3) ∧
    gW 1 = (2, Except.ok (some 9)) ∧
    Value.value (Value.new gW) 1 = ((⟨gW, some 9, true⟩, 2), Except.ok (some 9)) := by
  have havoid : AllAvoidC (0, "default") cwB := by
    intro k g hg
    simp only [cwB, Container.provide, Container.empty] at hg
    split at hg
    · injection hg with h2
      rw [← h2]
      exact Avoids.raiseErr 7
    · exact Option.noConfusion hg
  have hrun : Container.invoke 2 cwB 0 "default" = (cwB2, Except.error (Err.userErr 7)) := rfl
  have T := C3_factory_failure_atomic_retry cwB 0 "default" (FExp.raiseErr 7) 7 1 cwB2 gW
  refine ⟨rfl, rfl, havoid, T.1 rfl rfl, hrun, ?_, rfl, T.2.2.1 0 1 3 rfl, rfl,
    T.2.2.2 1 2 (some 9) rfl⟩
  have h2 := T.2.1 havoid rfl rfl hrun
  exact ⟨h2.1, h2.2.1, h2.2.2 0⟩

/-- Witness for C5 at a concrete container with a cached instance:
resolution returns the cached value untouched, and re-registration does not
disturb it. -/
theorem C5_resolved_terminal_witness :
    cwC._instances (0, "default") = some 9 ∧
    (((Container.invoke 1 cwC 0 "default").1)._instances (0, "default") = some 9 ∧
      ((Container.invoke 1 cwC 0 "default").1).calls (0, "default") = cwC.calls (0, "default")) ∧
    Container.invoke 1 cwC 0 "default" = (cwC, Except.ok 9) ∧
    ((Container.provide cwC 0 (FExp.ret 10) "default")._factories (0, "default")
        = some (FExp.ret 10) ∧
      (Container.provide cwC 0 (FExp.ret 10) "default")._instances (0, "default") = some 9 ∧
      Container.invoke 1 (Container.provide cwC 0 (FExp.ret 10) "default") 0 "default"
        = (Container.provide cwC 0 (FExp.ret 10) "default", Except.ok 9)) := by
  have T := C5_resolved_terminal cwC 0 "default" 9 rfl
  exact ⟨rfl, T.1 1 0 "default", T.2.1 0, T.2.2 (FExp.ret 10) 0⟩

/-- Witness for C6 at a concrete container: registration touches only its
own `_factories` entry. -/
theorem C6_provide_frame_witness :
    (((0, "x") : Nat × String) ≠ (0, "default")) ∧
    ((Container.empty Nat).provide 0 (FExp.ret 3))._factories (0, "default")
      = some (FExp.ret 3) ∧
    ((Container.empty Nat).provide 0 (FExp.ret 3))._factories (0, "x")
      = (Container.empty Nat)._factories (0, "x") := by
  have T := C6_provide_frame (Container.empty Nat) 0 "default" (FExp.ret 3)
  exact ⟨by decide, T.1, T.2.1 (0, "x") (by decide)⟩

/-- Witness for C7 at a concrete container: the default name resolves via
both call forms to the same singleton, and another name raises `KeyError`. -/
theorem C7_default_name_witness :
    Container.invoke 1 (Container.empty Nat) 0 = Container.invoke 1 (Container.empty Nat) 0 "default" ∧
    cwD._factories (0, "default") = some (FExp.ret 5) ∧
    Container.invoke 2 cwD 0 = (cwD', Except.ok 5) ∧
    Container.invoke 1 cwD' 0 "default" = (cwD', Except.ok 5) ∧
    (("x" : String) ≠ "default") ∧
    cwD._factories (0, "x") = none ∧
    cwD._instances (0, "x") = none ∧
    Container.invoke 1 cwD 0 "x" = (cwD, Except.error (Err.keyError (0, "x"))) := by
  have T := C7_default_name (Container.empty Nat) 0 (FExp.ret 5)
  have hrun : Container.invoke 2 cwD 0 = (cwD', Except.ok 5) := rfl
  refine ⟨T.2.1 1 (Container.empty Nat) 0, T.1, hrun, T.2.2.1 1 cwD' 5 hrun 0, by decide, rfl, rfl, ?_⟩
  have hx := T.2.2.2 "x" (by decide) rfl rfl 0
  exact hx

/-- Witness for C8 at a concrete counter factory: construction does not run
the factory, the first call bumps the counter once, and a second call
returns the cached result without touching the counter again. -/
theorem C8_lazycell_lazy_memoized_witness :
    (Value.new fW)._invoked = false ∧
    (Value.new fW)._value = none ∧
    (Value.new fW)._factory 0 = (1, Except.ok (some 5)) ∧
    Value.value (Value.new fW) 0 = (((⟨fW, some 5, true⟩ : Value Nat Nat), 1), Except.ok (some 5)) ∧
    ((⟨fW, some 5, true⟩ : Value Nat Nat))._invoked = true ∧
    Value.value ((⟨fW, some 5, true⟩ : Value Nat Nat)) 1
      = (((⟨fW, some 5, true⟩ : Value Nat Nat), 1), Except.ok (some 5)) :=
  ⟨rfl, rfl, rfl,
    (C8_lazycell_lazy_memoized fW (Value.new fW) 0 0).2.1 1 (some 5) rfl rfl,
    rfl,
    (C8_lazycell_lazy_memoized fW (⟨fW, some 5, true⟩ : Value Nat Nat) 0 1).2.2 rfl⟩

/-- Witness for C9 at the concrete self-referential registration: resolving
invokes the factory (the counter bumps) and exhausts any fuel bound. -/
theorem C9_reentrancy_unguarded_witness :
    cwE._instances (0, "default") = none ∧
    cwE._factories (0, "default") = some (selfFac 0 "default") ∧
    cwE.calls (0, "default") + 1 ≤ ((Container.invoke 1 cwE 0 "default").1).calls (0, "default") ∧
    (Container.invoke 5 cwE 0 "default").2 = Except.error Err.outOfFuel := by
  have T := C9_reentrancy_unguarded cwE 0 "default"
  exact ⟨rfl, rfl, T.1 (selfFac 0 "default") 0 rfl rfl, T.2 rfl rfl 5⟩

/-- Witness for C10 at a concrete `None`-returning factory: the first call
returns `None` and resolves the cell; the second returns `None` without
running the factory (world untouched). -/
theorem C10_none_result_memoized_witness :
    gN 0 = (1, Except.ok none) ∧
    Value.value (Value.new gN) 0 = (((⟨gN, none, true⟩ : Value Nat Nat), 1), Except.ok none) ∧
    Value.value ((⟨gN, none, true⟩ : Value Nat Nat)) 1
      = (((⟨gN, none, true⟩ : Value Nat Nat), 1), Except.ok none) :=
  ⟨rfl, (C10_none_result_memoized gN 0 1 rfl).1, (C10_none_result_memoized gN 0 1 rfl).2 1⟩
